import Mathlib

/-!
Shallow embedding of `src/drone_metadata/processing/batch_processor.py`.

Conventions of the embedding:
* `datetime` instants are abstract clock ticks (`Time := Nat`); ISO-8601
  serialization of an instant is modelled by `TimeText.iso`, and a non-empty
  string rejected by `datetime.fromisoformat` by `TimeText.bad` (an absent,
  `null` or empty — hence falsy — value is modelled by `Option.none` at the
  field).
* Python `str` values are Lean `String`s; where the code computes on the
  characters of a string (`Path.suffix`, `rglob` pattern matching, `sorted`)
  the model works on `String.data` with explicitly defined character-list
  functions mirroring CPython semantics (code-point comparisons).
* Counters are `Int` (Python integers; a checkpoint file may store any
  integer), attempt counts are `Nat` (the code only ever stores the loop
  counter).
* The mutable `BatchProgress`/job objects are modelled by explicit state
  passing.  `progress.jobs` is the insertion-ordered list of the values of the
  Python dict `jobs`; its keys are the `job_id` fields (the code keeps the key
  and the field equal everywhere).  In-place mutation of a job object during
  the submission loop is modelled positionally (`List.set` at the job's index),
  and `progress.jobs[job.job_id] = job` in the completion loop is modelled by
  `set_job`, keyed replacement with dict semantics (replace in place, append
  when the key is new).
* Fallible operations return `Option`/`Except`.  The worker's per-attempt
  pipeline (parse → convert → classify → generate outputs), which lives in
  collaborator modules and touches the filesystem, is abstracted as an oracle
  `Nat → Except String (List String)` giving, per attempt number, either the
  raised exception's text or the generated output-file list.
* `VideoProcessingJob.result` (the in-memory `VideoAnalysisResult`) is not
  modelled: `to_dict` does not serialize it, `load_progress` does not restore
  it, and no claim mentions it.
* `time.sleep` calls and the attempts actually executed are returned as
  instrumentation alongside the job (`process_single_video` returns the job,
  the list of attempt numbers run, and the list of slept durations).
* `estimate_completion_time` (floating-point linear extrapolation writing only
  `estimated_completion`) and the logging/progress-callback calls are outside
  the model; the periodic `save_progress` inside `_update_progress` touches
  only `last_update` and the checkpoint file, which the run-level model does
  not track (checkpointing itself is modelled by `save_progress` below).
-/

namespace DroneMetadata

/-- Abstract clock instants standing for `datetime` values. -/
abbrev Time := Nat

/-- Serialized timestamp text: a well-formed ISO string for instant `t`, or a
non-empty string `datetime.fromisoformat` rejects. -/
inductive TimeText where
  | iso (t : Time)
  | bad
deriving DecidableEq

/-- `BatchConfig` dataclass (defaults as in the source). -/
structure BatchConfig where
  max_workers : Nat := 4
  timeout_per_video : Nat := 300
  retry_attempts : Nat := 2
  retry_delay : ℚ := 1
  save_progress_interval : Nat := 10
  enable_progress_file : Bool := true
  progress_file_name : String := "batch_progress.json"
  continue_on_error : Bool := true
  max_error_percentage : ℚ := 50
  overwrite_existing : Bool := false
  separate_failed_videos : Bool := true
  enable_resume : Bool := true
  skip_completed : Bool := true
deriving DecidableEq

/-- `VideoProcessingJob` dataclass (statuses are the literal strings used by
the code: pending, processing, completed, failed, skipped). -/
structure VideoProcessingJob where
  video_path : String
  job_id : String
  status : String := "pending"
  start_time : Option Time := none
  end_time : Option Time := none
  attempts : Nat := 0
  error_message : Option String := none
  output_files : List String := []
deriving DecidableEq

/-- `BatchProgress` dataclass. -/
structure BatchProgress where
  batch_id : String
  total_videos : Int := 0
  completed : Int := 0
  failed : Int := 0
  skipped : Int := 0
  in_progress : Int := 0
  start_time : Option Time := none
  last_update : Option Time := none
  estimated_completion : Option Time := none
  jobs : List VideoProcessingJob := []
deriving DecidableEq

/-- `BatchProgress.processed` property: completed + failed + skipped. -/
def BatchProgress.processed (p : BatchProgress) : Int :=
  p.completed + p.failed + p.skipped

/-- `BatchProgress.remaining` property. -/
def BatchProgress.remaining (p : BatchProgress) : Int :=
  p.total_videos - p.processed - p.in_progress

/-- `BatchProgress.success_rate` property: `(completed / processed) * 100`,
guarded to `0.0` when `processed == 0`. -/
def BatchProgress.success_rate (p : BatchProgress) : ℚ :=
  if p.processed = 0 then 0 else ((p.completed : ℚ) / (p.processed : ℚ)) * 100

/-- `BatchProgress.completion_percentage` property: `(processed / total) * 100`,
guarded to `0.0` when `total_videos == 0`. -/
def BatchProgress.completion_percentage (p : BatchProgress) : ℚ :=
  if p.total_videos = 0 then 0
  else ((p.processed : ℚ) / (p.total_videos : ℚ)) * 100

/-- Number of jobs whose status is the string pending (the implicit `pending`
counter of the spec's invariant, read off the job collection). -/
def pending_count (jobs : List VideoProcessingJob) : Int :=
  (jobs.countP (fun j => j.status = "pending") : Int)

/-! ### discover_videos -/

/-- The literal extension set of `discover_videos` (a Python `set`; iteration
order is irrelevant to the model because the result is deduplicated and
sorted). -/
def video_extensions : List String := [".mp4", ".MP4", ".mov", ".MOV", ".avi", ".AVI"]

/-- Code-point comparison of two character lists, lexicographic — the order
CPython's `sorted` uses on `str`. -/
def char_list_le : List Char → List Char → Bool
  | [], _ => true
  | _ :: _, [] => false
  | a :: as, b :: bs =>
    if a.toNat < b.toNat then true
    else if b.toNat < a.toNat then false
    else char_list_le as bs

/-- Python string ordering on the model's strings. -/
def str_le (a b : String) : Bool := char_list_le a.data b.data

/-- `str_le` as a relation, for the sort. -/
def StrLe (a b : String) : Prop := str_le a b = true

/-- The final path component (`PurePath.name`, for paths without a trailing
separator). -/
def path_name (p : String) : List Char :=
  (p.data.reverse.takeWhile (fun c => decide (c ≠ '/'))).reverse

/-- Index of the last occurrence of `c`, as `name.rfind` does. -/
def last_index_of (c : Char) (cs : List Char) : Option Nat :=
  (cs.enum.filterMap (fun q => if q.2 = c then some q.1 else none)).getLast?

/-- `PurePath.suffix`: the pathlib source returns `name[i:]` for
`i = name.rfind('.')` when `0 < i < len(name) - 1`, else the empty string. -/
def py_suffix (p : String) : String :=
  let name := path_name p
  match last_index_of '.' name with
  | none => ""
  | some i => if 0 < i ∧ i + 1 < name.length then String.mk (name.drop i) else ""

/-- `fnmatch` of the pattern `"*" + ext` used by `path.rglob(f"*{ext}")`: the
name matches exactly when it ends with `ext` (code-point equality; `*` matches
any run of characters including dots). -/
def glob_ends_with (p ext : String) : Bool := ext.data.isSuffixOf p.data

/-- An element of the `input_paths` argument together with what the filesystem
says about it: a plain file, a directory (with the list of paths its recursive
`rglob` walk can yield), or a path that is neither. -/
inductive InputPath where
  | file (path : String)
  | dir (path : String) (descendants : List String)
  | absent (path : String)
deriving DecidableEq

/-- The paths one element of `input_paths` contributes before deduplication:
a file input passes the `path.suffix in video_extensions` test, a directory
input is expanded by `path.rglob(f"*{ext}")` for each extension. -/
def discover_matches : InputPath → List String
  | .file p => if video_extensions.contains (py_suffix p) then [p] else []
  | .dir _ ds => video_extensions.flatMap (fun ext => ds.filter (fun d => glob_ends_with d ext))
  | .absent _ => []

instance : DecidableRel StrLe := fun a b => instDecidableEqBool (str_le a b) true

/-- `BatchProcessor.discover_videos`: collect, then
`sorted(list(set(video_files)))`.  (CPython's `sorted` is modelled by
insertion sort with the same ordering; on the deduplicated list the sorted
permutation is unique, so the model's output is `sorted`'s output.) -/
def discover_videos (input_paths : List InputPath) : List String :=
  ((input_paths.flatMap discover_matches).dedup).insertionSort StrLe

/-! ### Checkpoint file: save_progress / load_progress -/

/-- One job record of the checkpoint JSON, as far as `load_progress` reads it.
`none` stands for an absent or `null` (or, for the timestamps, empty — falsy)
field.  `to_dict` also writes `job_id` and the derived `processing_time`;
`load_progress` never reads them, and the model omits such write-only fields. -/
structure RawJob where
  video_path : Option String := none
  status : Option String := none
  attempts : Option Nat := none
  error_message : Option String := none
  output_files : Option (List String) := none
  start_time : Option TimeText := none
  end_time : Option TimeText := none
deriving DecidableEq

/-- The checkpoint JSON document, as far as `load_progress` reads it (the
derived counters `processed`, `remaining`, `success_rate`,
`completion_percentage` and `estimated_completion` are written by `to_dict`
but never read back).  `jobs` is the ordered list of (key, record) items. -/
structure RawProgress where
  batch_id : Option String := none
  total_videos : Option Int := none
  completed : Option Int := none
  failed : Option Int := none
  skipped : Option Int := none
  in_progress : Option Int := none
  start_time : Option TimeText := none
  last_update : Option TimeText := none
  jobs : Option (List (String × RawJob)) := none
deriving DecidableEq

/-- State of the checkpoint file: missing, present but not JSON-decodable, or
a decoded document. -/
inductive CheckpointFile where
  | missing
  | corrupt
  | stored (data : RawProgress)
deriving DecidableEq

/-- `datetime.fromisoformat` on an optional timestamp field guarded by Python
truthiness: absent/null/empty stays `None`; text is parsed, and unparseable
text raises (`none` result). -/
def parse_opt_time : Option TimeText → Option (Option Time)
  | none => some none
  | some (.iso t) => some (some t)
  | some .bad => none

/-- Reconstruction of one job from its checkpoint record (the body of the
`for job_id, job_data in data.get('jobs', {}).items()` loop).  `video_path` is
accessed by direct indexing — absence raises; `status`, `attempts`,
`error_message`, `output_files` fall back to `.get` defaults; a present but
unparseable timestamp raises.  Any raise aborts the whole load. -/
def load_job (job_id : String) (d : RawJob) : Option VideoProcessingJob := do
  let path ← d.video_path
  let st ← parse_opt_time d.start_time
  let et ← parse_opt_time d.end_time
  pure { video_path := path
         job_id := job_id
         status := d.status.getD "pending"
         start_time := st
         end_time := et
         attempts := d.attempts.getD 0
         error_message := d.error_message
         output_files := d.output_files.getD [] }

/-- The `for job_id, job_data in data.get('jobs', {}).items()` loop: each
iteration may raise, aborting the whole load. -/
def load_jobs : List (String × RawJob) → Option (List VideoProcessingJob)
  | [] => some []
  | kv :: rest => do
    let j ← load_job kv.1 kv.2
    let js ← load_jobs rest
    pure (j :: js)

/-- Reconstruction of the `BatchProgress` object from a decoded document whose
`batch_id` already matched (lines 239–270 of the source). -/
def reconstruct_progress (batch_id : String) (d : RawProgress) : Option BatchProgress := do
  let st ← parse_opt_time d.start_time
  let lu ← parse_opt_time d.last_update
  let jobs ← load_jobs (d.jobs.getD [])
  pure { batch_id := batch_id
         total_videos := d.total_videos.getD 0
         completed := d.completed.getD 0
         failed := d.failed.getD 0
         skipped := d.skipped.getD 0
         in_progress := d.in_progress.getD 0
         start_time := st
         last_update := lu
         jobs := jobs }

/-- `BatchProcessor.load_progress`: absent file → `None`; undecodable content
raises inside the `try` → `None`; `batch_id` mismatch → `None` (logged, not
fatal); any exception during reconstruction → `None`. -/
def load_progress (batch_id : String) (file : CheckpointFile) : Option BatchProgress :=
  match file with
  | .missing => none
  | .corrupt => none
  | .stored d =>
    if d.batch_id ≠ some batch_id then none
    else reconstruct_progress batch_id d

/-- `VideoProcessingJob.to_dict`, restricted to the fields `load_progress`
reads back. -/
def job_to_raw (j : VideoProcessingJob) : RawJob :=
  { video_path := some j.video_path
    status := some j.status
    attempts := some j.attempts
    error_message := j.error_message
    output_files := some j.output_files
    start_time := j.start_time.map .iso
    end_time := j.end_time.map .iso }

/-- `BatchProgress.to_dict`, restricted to the fields `load_progress` reads
back. -/
def progress_to_raw (p : BatchProgress) : RawProgress :=
  { batch_id := some p.batch_id
    total_videos := some p.total_videos
    completed := some p.completed
    failed := some p.failed
    skipped := some p.skipped
    in_progress := some p.in_progress
    start_time := p.start_time.map .iso
    last_update := p.last_update.map .iso
    jobs := some (p.jobs.map (fun j => (j.job_id, job_to_raw j))) }

/-- `BatchProcessor.save_progress`: a no-op unless `enable_progress_file`;
otherwise stamps `last_update = now` and rewrites the checkpoint file with
`progress.to_dict()`.  Returns the new file state and the (mutated) progress
object.  (A write-time I/O error, which the code logs and swallows, is not
modelled.) -/
def save_progress (config : BatchConfig) (now : Time) (file : CheckpointFile)
    (p : BatchProgress) : CheckpointFile × BatchProgress :=
  if config.enable_progress_file = false then (file, p)
  else
    let p' := { p with last_update := some now }
    (.stored (progress_to_raw p'), p')

/-! ### Worker body: _process_single_video -/

/-- The retry loop `for attempt in range(1, retry_attempts + 1)` of
`_process_single_video`.  `fuel` is the number of iterations the range still
holds (`retry_attempts + 1 - attempt`, so the base case is only reached when
`retry_attempts == 0` and the loop body never runs).  `run attempt` is the
oracle for the attempt's pipeline: `.ok outputs` when parse → convert →
classify → generate succeed, `.error msg` when the attempt raises with text
`msg`.  Returns the job together with the list of attempt numbers executed
and the list of durations passed to `time.sleep` (the linear backoff
`retry_delay * attempt`, slept only when the attempt failed and was not the
last). -/
def process_attempts (config : BatchConfig) (run : Nat → Except String (List String))
    (t_end : Time) : Nat → Nat → VideoProcessingJob →
    VideoProcessingJob × List Nat × List ℚ
  | 0, _, job => (job, [], [])
  | fuel + 1, attempt, job =>
    let job := { job with attempts := attempt }
    match run attempt with
    | .ok outs =>
      ({ job with status := "completed", output_files := outs, end_time := some t_end },
       [attempt], [])
    | .error msg =>
      let job := { job with
        error_message := some ("Attempt " ++ toString attempt ++ " failed: " ++ msg) }
      if attempt < config.retry_attempts then
        let r := process_attempts config run t_end fuel (attempt + 1) job
        (r.1, attempt :: r.2.1, config.retry_delay * (attempt : ℚ) :: r.2.2)
      else
        ({ job with status := "failed", end_time := some t_end }, [attempt], [])

/-- `BatchProcessor._process_single_video`: stamp `start_time`, set status
processing, then run the retry loop starting at attempt 1. -/
def process_single_video (config : BatchConfig) (run : Nat → Except String (List String))
    (t_start t_end : Time) (job : VideoProcessingJob) :
    VideoProcessingJob × List Nat × List ℚ :=
  process_attempts config run t_end config.retry_attempts 1
    { job with start_time := some t_start, status := "processing" }

/-! ### process_batch -/

/-- The filter condition of the `jobs_to_process` loop (lines 480–486),
translated branch for branch: membership in `["pending", "failed"]`, the
(dead) retry-budget disjunct, the completed/skipped skip, and the fall-through
`else` that selects any other status. -/
def selects_job (config : BatchConfig) (job : VideoProcessingJob) : Bool :=
  if (job.status = "pending" ∨ job.status = "failed")
      ∨ (job.status = "failed" ∧ job.attempts < config.retry_attempts) then
    true
  else if (job.status = "completed" ∨ job.status = "skipped") ∧ config.skip_completed = true then
    false
  else
    true

/-- The `jobs_to_process` list, with each selected job paired with its
position in `progress.jobs` (Python keeps the object references; the position
stands for the object's identity so that in-place mutation can be modelled by
`List.set`). -/
def jobs_to_process_idx (config : BatchConfig) (jobs : List VideoProcessingJob) :
    List (Nat × VideoProcessingJob) :=
  jobs.enum.filter (fun q => selects_job config q.2)

/-- One iteration of the submission loop: `job.status = "processing"` (an
in-place mutation of the object held in `progress.jobs`, modelled by `set` at
the job's position) and `progress.in_progress += 1`.  The submission itself
hands the job to `_process_single_video`. -/
def submit_job (p : BatchProgress) (ij : Nat × VideoProcessingJob) : BatchProgress :=
  { p with jobs := p.jobs.set ij.1 { ij.2 with status := "processing" },
           in_progress := p.in_progress + 1 }

/-- The whole submission loop. -/
def submit_phase (p : BatchProgress) (to_process : List (Nat × VideoProcessingJob)) :
    BatchProgress :=
  to_process.foldl submit_job p

/-- Dict assignment `progress.jobs[job.job_id] = job`: replace the entry whose
key equals `job.job_id` in place, append when no entry matches. -/
def set_job : List VideoProcessingJob → VideoProcessingJob → List VideoProcessingJob
  | [], j => [j]
  | k :: rest, j => if k.job_id = j.job_id then j :: rest else k :: set_job rest j

/-- `BatchProcessor._update_progress`, counters part: bump the counter
matching the returned job's status, decrement `in_progress`.  (The
completion-time estimate, the periodic checkpoint write — which touches only
`last_update` and the file — and the progress callback are outside this
state.) -/
def update_progress (p : BatchProgress) (job : VideoProcessingJob) : BatchProgress :=
  let p :=
    if job.status = "completed" then { p with completed := p.completed + 1 }
    else if job.status = "failed" then { p with failed := p.failed + 1 }
    else if job.status = "skipped" then { p with skipped := p.skipped + 1 }
    else p
  { p with in_progress := p.in_progress - 1 }

/-- Body of the `for future in as_completed(...)` loop, one completed job:
store the updated job, then `_update_progress`.  (The `except` arm around
`future.result()` is unreachable in the model: the worker body catches every
pipeline exception itself.) -/
def completion_step (p : BatchProgress) (job : VideoProcessingJob) : BatchProgress :=
  update_progress { p with jobs := set_job p.jobs job } job

/-- The circuit-breaker test of lines 514–518, with Python's short-circuit
`and`: more than 10 processed, and the running success rate below
`100 - max_error_percentage`. -/
def breaker_tripped (config : BatchConfig) (p : BatchProgress) : Bool :=
  decide (p.processed > 10) &&
    decide (p.success_rate < 100 - config.max_error_percentage)

/-- The completion loop over the worker results in completion order: after
each processed result the breaker is evaluated, and when it trips with
`continue_on_error` false the loop `break`s, returning the progress as it
stands.  Results not yet iterated are simply never folded in (their futures
still run to completion inside the pool's shutdown wait). -/
def completion_loop (config : BatchConfig) :
    BatchProgress → List VideoProcessingJob → BatchProgress
  | p, [] => p
  | p, job :: rest =>
    let p' := completion_step p job
    if breaker_tripped config p' && !config.continue_on_error then p'
    else completion_loop config p' rest

/-- Every intermediate progress state of the completion loop, in order,
truncated where the loop breaks. -/
def completion_trace (config : BatchConfig) :
    BatchProgress → List VideoProcessingJob → List BatchProgress
  | _, [] => []
  | p, job :: rest =>
    let p' := completion_step p job
    if breaker_tripped config p' && !config.continue_on_error then [p']
    else p' :: completion_trace config p' rest

/-- `f"job_{i:04d}"`: zero-padded to width 4. -/
def job_id_str (i : Nat) : String :=
  "job_" ++ String.mk (List.replicate (4 - (Nat.repr i).length) '0') ++ Nat.repr i

/-- Fresh `BatchProgress` for a batch that could not be resumed (lines
466–474): one pending job per discovered file, in discovery order. -/
def fresh_progress (batch_id : String) (video_files : List String) (t : Time) :
    BatchProgress :=
  { batch_id := batch_id
    total_videos := (video_files.length : Int)
    start_time := some t
    jobs := video_files.enum.map
      (fun q => { video_path := q.2, job_id := job_id_str q.1 }) }

/-- The worker result for a submitted job.  `process_single_video` overwrites
`status`, `start_time` and `attempts` on entry, so applying it to the job as
it was before the submission loop marked it processing yields the identical
result. -/
def worker_result (config : BatchConfig)
    (oracle : VideoProcessingJob → Nat → Except String (List String))
    (ts te : VideoProcessingJob → Time) (j : VideoProcessingJob) : VideoProcessingJob :=
  (process_single_video config (oracle j) (ts j) (te j) j).1

/-- Every observable progress state of one `process_batch` run after the
filter step: the state before submission, each submission-loop state, and each
completion-loop state.  `sched` is the order `as_completed` yields the
submitted jobs in. -/
def batch_observations (config : BatchConfig) (p : BatchProgress)
    (oracle : VideoProcessingJob → Nat → Except String (List String))
    (ts te : VideoProcessingJob → Time)
    (sched : List (Nat × VideoProcessingJob)) : List BatchProgress :=
  let to_process := jobs_to_process_idx config p.jobs
  (to_process.scanl submit_job p) ++
    completion_trace config (submit_phase p to_process)
      (sched.map (fun ij => worker_result config oracle ts te ij.2))

/-- `BatchProcessor.process_batch` (with the batch id supplied; the
timestamp-derived default id is not modelled).  Returns the final progress and
checkpoint-file state, or the `ValueError` text when discovery finds nothing.
`t0` is the clock at batch start, `t_save` at the final checkpoint write. -/
def process_batch (config : BatchConfig) (input_paths : List InputPath)
    (batch_id : String) (file : CheckpointFile) (t0 t_save : Time)
    (oracle : VideoProcessingJob → Nat → Except String (List String))
    (ts te : VideoProcessingJob → Time)
    (sched : List (Nat × VideoProcessingJob) → List (Nat × VideoProcessingJob)) :
    Except String (BatchProgress × CheckpointFile) :=
  let video_files := discover_videos input_paths
  if video_files = [] then .error "No video files found in input paths"
  else
    let loaded := if config.enable_resume then load_progress batch_id file else none
    let progress :=
      match loaded with
      | some pr => pr
      | none => fresh_progress batch_id video_files t0
    let to_process := jobs_to_process_idx config progress.jobs
    if to_process = [] then .ok (progress, file)
    else
      let after := completion_loop config (submit_phase progress to_process)
        ((sched to_process).map (fun ij => worker_result config oracle ts te ij.2))
      let saved := save_progress config t_save file after
      .ok (saved.2, saved.1)

/-- The extension test the spec describes (`.mp4/.mov/.avi`, case-insensitive,
any mixture of cases).  Modelled from the spec's words, for comparison with
`discover_videos`; ASCII lowercasing written out explicitly. -/
def spec_char_lower (c : Char) : Char :=
  if c.toNat ≥ 65 ∧ c.toNat ≤ 90 then Char.ofNat (c.toNat + 32) else c

/-- Case-insensitive extension match, as the spec's words describe discovery. -/
def spec_matches_ci (p : String) : Bool :=
  [".mp4", ".mov", ".avi"].contains (String.mk ((py_suffix p).data.map spec_char_lower))

end DroneMetadata

namespace DroneMetadata

/-! ## Order facts about the model's Python string ordering -/

theorem char_list_le_total : ∀ as bs : List Char,
    char_list_le as bs = true ∨ char_list_le bs as = true
  | [], _ => Or.inl rfl
  | _ :: _, [] => Or.inr rfl
  | a :: as, b :: bs => by
    by_cases h1 : a.toNat < b.toNat
    · exact Or.inl (by simp [char_list_le, h1])
    · by_cases h2 : b.toNat < a.toNat
      · exact Or.inr (by simp [char_list_le, h1, h2])
      · rcases char_list_le_total as bs with h | h
        · exact Or.inl (by simp [char_list_le, h1, h2, h])
        · exact Or.inr (by simp [char_list_le, h1, h2, h])

theorem char_list_le_trans : ∀ as bs cs : List Char,
    char_list_le as bs = true → char_list_le bs cs = true → char_list_le as cs = true
  | [], _, _ => by intro _ _; rfl
  | _ :: _, [], _ => by intro h _; simp [char_list_le] at h
  | _ :: _, _ :: _, [] => by intro _ h; simp [char_list_le] at h
  | a :: as, b :: bs, c :: cs => by
    intro h1 h2
    simp only [char_list_le] at h1 h2 ⊢
    by_cases hab : a.toNat < b.toNat <;> by_cases hba : b.toNat < a.toNat <;>
      by_cases hbc : b.toNat < c.toNat <;> by_cases hcb : c.toNat < b.toNat <;>
      simp [hab, hba, hbc, hcb] at h1 h2 ⊢
    all_goals first
      | exact Or.inl (by omega)
      | exact Or.inr ⟨by omega, char_list_le_trans as bs cs h1 h2⟩

instance : IsTotal String StrLe :=
  ⟨fun a b => char_list_le_total a.data b.data⟩

instance : IsTrans String StrLe :=
  ⟨fun a b c hab hbc => char_list_le_trans a.data b.data c.data hab hbc⟩

/-! ## C1 -/

/-- C1 evaluation at the failing input: with the default configuration
(`retry_attempts = 2`, `skip_completed = true`), a job loaded with status
failed and `attempts = 2` — an exhausted retry budget — is still placed in
the `jobs_to_process` set, because membership of the string failed in
`["pending", "failed"]` already selects it and the `attempts <
retry_attempts` guard is dead code.  The claim says such a job is not
re-executed. -/
theorem C1_exhausted_failed_job_still_selected :
    jobs_to_process_idx {}
        [{ video_path := "a.mp4", job_id := "job_0000", status := "failed", attempts := 2 }]
      = [(0, { video_path := "a.mp4", job_id := "job_0000", status := "failed", attempts := 2 })]
    ∧ ¬ ((2 : Nat) < ({} : BatchConfig).retry_attempts)
    ∧ ({} : BatchConfig).skip_completed = true := by
  decide

/-! ## C9 -/

/-- C9: the derived percentages are total — `success_rate` is `0` whenever
`processed = 0` and `(completed / processed) * 100` otherwise;
`completion_percentage` is `0` whenever `total_videos = 0` and
`(processed / total_videos) * 100` otherwise. -/
theorem C9_percentages_total (p : BatchProgress) :
    (p.processed = 0 → p.success_rate = 0)
    ∧ (p.processed ≠ 0 → p.success_rate = ((p.completed : ℚ) / (p.processed : ℚ)) * 100)
    ∧ (p.total_videos = 0 → p.completion_percentage = 0)
    ∧ (p.total_videos ≠ 0 →
        p.completion_percentage = ((p.processed : ℚ) / (p.total_videos : ℚ)) * 100) := by
  unfold BatchProgress.success_rate BatchProgress.completion_percentage
  refine ⟨fun h => by simp [h], fun h => by simp [h], fun h => by simp [h], fun h => by simp [h]⟩

/-- Witness for C9 at a concrete progress value. -/
theorem C9_percentages_total_witness :
    (({ batch_id := "b" } : BatchProgress).processed = 0 →
      ({ batch_id := "b" } : BatchProgress).success_rate = 0)
    ∧ (({ batch_id := "b" } : BatchProgress).processed ≠ 0 →
      ({ batch_id := "b" } : BatchProgress).success_rate =
        ((({ batch_id := "b" } : BatchProgress).completed : ℚ) /
          (({ batch_id := "b" } : BatchProgress).processed : ℚ)) * 100)
    ∧ (({ batch_id := "b" } : BatchProgress).total_videos = 0 →
      ({ batch_id := "b" } : BatchProgress).completion_percentage = 0)
    ∧ (({ batch_id := "b" } : BatchProgress).total_videos ≠ 0 →
      ({ batch_id := "b" } : BatchProgress).completion_percentage =
        ((({ batch_id := "b" } : BatchProgress).processed : ℚ) /
          (({ batch_id := "b" } : BatchProgress).total_videos : ℚ)) * 100) :=
  C9_percentages_total { batch_id := "b" }

/-! ## C10 -/

/-- C10: with `enable_progress_file = false`, `save_progress` is a no-op — the
checkpoint file state and the progress object (in particular its
`last_update`) are returned unchanged. -/
theorem C10_save_progress_noop_when_disabled (config : BatchConfig) (now : Time)
    (file : CheckpointFile) (p : BatchProgress)
    (h : config.enable_progress_file = false) :
    save_progress config now file p = (file, p) := by
  simp [save_progress, h]

/-- Witness for C10 at a concrete input. -/
theorem C10_save_progress_noop_when_disabled_witness :
    save_progress { enable_progress_file := false } 7 .missing { batch_id := "b" }
      = (.missing, { batch_id := "b" }) :=
  C10_save_progress_noop_when_disabled { enable_progress_file := false } 7 .missing
    { batch_id := "b" } rfl

end DroneMetadata

namespace DroneMetadata

/-! ## C5 -/

/-- Reloading the serialized form of one job record reproduces it exactly. -/
theorem load_job_job_to_raw (j : VideoProcessingJob) :
    load_job j.job_id (job_to_raw j) = some j := by
  cases j with
  | mk vp id st t0 t1 att em outs =>
    cases t0 <;> cases t1 <;> simp [load_job, job_to_raw, parse_opt_time]

/-- Reloading the serialized job map reproduces the job list exactly. -/
theorem load_jobs_map_to_raw (l : List VideoProcessingJob) :
    load_jobs (l.map (fun j => (j.job_id, job_to_raw j))) = some l := by
  induction l with
  | nil => rfl
  | cons j rest ih => simp [load_jobs, load_job_job_to_raw j, ih]

/-- C5: with checkpointing enabled, `save_progress` followed by
`load_progress` under the same batch id returns a progress whose counters
(`total_videos`, `completed`, `failed`, `skipped`, `in_progress`), timestamps
and per-job records (status, attempts, error message, output-file list,
timestamps) all equal the saved ones — everything round-trips except
`last_update` (stamped by the save itself) and `estimated_completion` (written
to the file but never read back). -/
theorem C5_checkpoint_roundtrip (config : BatchConfig) (now : Time)
    (file : CheckpointFile) (p : BatchProgress)
    (h : config.enable_progress_file = true) :
    load_progress p.batch_id (save_progress config now file p).1
      = some { p with last_update := some now, estimated_completion := none } := by
  cases p with
  | mk bid tv c f s ip st lu ec jobs =>
    simp only [save_progress, h, Bool.true_eq_false, if_false, load_progress,
      progress_to_raw]
    rw [if_neg (by simp)]
    cases st <;>
      simp [reconstruct_progress, parse_opt_time, load_jobs_map_to_raw]

/-- Witness for C5 at a concrete progress value. -/
theorem C5_checkpoint_roundtrip_witness :
    load_progress "b" (save_progress {} 7 .missing
      { batch_id := "b", total_videos := 2, completed := 1,
        jobs := [{ video_path := "v.mp4", job_id := "job_0000",
                   status := "completed", attempts := 1, start_time := some 3 }] }).1
    = some { batch_id := "b", total_videos := 2, completed := 1, last_update := some 7,
             jobs := [{ video_path := "v.mp4", job_id := "job_0000",
                        status := "completed", attempts := 1, start_time := some 3 }] } :=
  C5_checkpoint_roundtrip {} 7 .missing
    { batch_id := "b", total_videos := 2, completed := 1,
      jobs := [{ video_path := "v.mp4", job_id := "job_0000",
                 status := "completed", attempts := 1, start_time := some 3 }] } rfl

/-! ## C7 -/

/-- C7: `load_progress` returns absent exactly when the checkpoint file is
missing, its content is malformed (undecodable, or a document whose
reconstruction raises — a missing job path or an unparseable timestamp), or
the stored batch id differs from the requested one; in every other case it
returns the fully reconstructed progress.  The model is a total function, so
no exception escapes, and reconstruction is all-or-nothing: no partially
populated progress is ever returned. -/
theorem C7_load_progress_absent_cases (batch_id : String) (file : CheckpointFile) :
    (load_progress batch_id file = none ↔
      file = .missing ∨ file = .corrupt ∨
        ∃ d, file = .stored d ∧
          (d.batch_id ≠ some batch_id ∨ reconstruct_progress batch_id d = none))
    ∧ (∀ d, file = .stored d → d.batch_id = some batch_id →
        load_progress batch_id file = reconstruct_progress batch_id d) := by
  cases file with
  | missing => simp [load_progress]
  | corrupt => simp [load_progress]
  | stored d =>
    by_cases h : d.batch_id = some batch_id
    · refine ⟨?_, ?_⟩
      · simp [load_progress, h]
      · intro d2 hd hbid
        cases hd
        simp [load_progress, h]
    · refine ⟨?_, ?_⟩
      · simp [load_progress, h]
      · intro d2 hd hbid
        cases hd
        exact absurd hbid h

/-- Witness for C7: each absent case and the success case at concrete
inputs. -/
theorem C7_load_progress_absent_cases_witness :
    load_progress "b" .missing = none
    ∧ load_progress "b" .corrupt = none
    ∧ load_progress "b" (.stored { batch_id := some "other" }) = none
    ∧ load_progress "b" (.stored { batch_id := some "b" }) =
        reconstruct_progress "b" { batch_id := some "b" } :=
  ⟨(C7_load_progress_absent_cases "b" .missing).1.mpr (Or.inl rfl),
   (C7_load_progress_absent_cases "b" .corrupt).1.mpr (Or.inr (Or.inl rfl)),
   (C7_load_progress_absent_cases "b" (.stored { batch_id := some "other" })).1.mpr
     (Or.inr (Or.inr (Exists.intro { batch_id := some "other" }
       (And.intro rfl (Or.inl (by decide)))))),
   (C7_load_progress_absent_cases "b" (.stored { batch_id := some "b" })).2
     { batch_id := some "b" } rfl rfl⟩

end DroneMetadata

namespace DroneMetadata

/-! ## Worker body: retry loop facts -/
/-- When every attempt's pipeline raises, the retry loop runs attempts
`attempt, attempt+1, …, retry_attempts` exactly once each, sleeps the linear
backoff between consecutive attempts only, and ends failed with the attempt
counter at `retry_attempts`.  `fuel` is tied to the loop by
`attempt + fuel = retry_attempts + 1`. -/
theorem process_attempts_all_fail (config : BatchConfig)
    (run : Nat → Except String (List String)) (t_end : Time)
    (hfail : ∀ k, ∃ m, run k = Except.error m) :
    ∀ fuel attempt job, attempt + fuel = config.retry_attempts + 1 → 1 ≤ fuel →
      (process_attempts config run t_end fuel attempt job).1.status = "failed"
      ∧ (process_attempts config run t_end fuel attempt job).1.attempts =
          config.retry_attempts
      ∧ (process_attempts config run t_end fuel attempt job).2.1 =
          List.range' attempt fuel
      ∧ (process_attempts config run t_end fuel attempt job).2.2 =
          (List.range' attempt (fuel - 1)).map
            (fun k : Nat => config.retry_delay * (k : ℚ)) := by
  intro fuel
  induction fuel with
  | zero => intro attempt job _ h; omega
  | succ g ih =>
    intro attempt job hsum _
    obtain ⟨m, hm⟩ := hfail attempt
    by_cases hlt : attempt < config.retry_attempts
    · have ihres := ih (attempt + 1)
        { job with attempts := attempt,
                   error_message :=
                     some ("Attempt " ++ toString attempt ++ " failed: " ++ m) }
        (by omega) (by omega)
      refine ⟨?_, ?_, ?_, ?_⟩ <;> simp only [process_attempts, hm, if_pos hlt]
      · exact ihres.1
      · exact ihres.2.1
      · rw [ihres.2.2.1, List.range'_succ]
      · obtain ⟨g1, hg⟩ : ∃ g1, g = g1 + 1 := ⟨g - 1, by omega⟩
        rw [ihres.2.2.2, hg]
        simp only [Nat.succ_sub_one, Nat.add_sub_cancel]
        rw [List.range'_succ, List.map_cons]
    · have ha : attempt = config.retry_attempts := by omega
      have hg0 : g = 0 := by omega
      subst hg0
      refine ⟨?_, ?_, ?_, ?_⟩ <;> simp [process_attempts, hm, hlt, List.range', ← ha]

/-- When the first successful attempt is attempt `k`, the retry loop runs
attempts `attempt, …, k` exactly once each and ends completed with the
attempt counter at `k` and the attempt's outputs recorded. -/
theorem process_attempts_first_success (config : BatchConfig)
    (run : Nat → Except String (List String)) (t_end : Time) (k : Nat)
    (outs : List String) (hk : run k = Except.ok outs)
    (hbefore : ∀ i, 1 ≤ i → i < k → ∃ m, run i = Except.error m)
    (hkR : k ≤ config.retry_attempts) :
    ∀ fuel attempt job, attempt + fuel = config.retry_attempts + 1 → 1 ≤ attempt →
      attempt ≤ k →
      (process_attempts config run t_end fuel attempt job).1.status = "completed"
      ∧ (process_attempts config run t_end fuel attempt job).1.attempts = k
      ∧ (process_attempts config run t_end fuel attempt job).1.output_files = outs
      ∧ (process_attempts config run t_end fuel attempt job).2.1 =
          List.range' attempt (k - attempt + 1) := by
  intro fuel
  induction fuel with
  | zero => intro attempt job hsum ha1 hak; omega
  | succ g ih =>
    intro attempt job hsum ha1 hak
    by_cases hae : attempt = k
    · subst hae
      refine ⟨?_, ?_, ?_, ?_⟩ <;> simp [process_attempts, hk, List.range']
    · have haltk : attempt < k := by omega
      obtain ⟨m, hm⟩ := hbefore attempt ha1 haltk
      have hlt : attempt < config.retry_attempts := by omega
      have ihres := ih (attempt + 1)
        { job with attempts := attempt,
                   error_message :=
                     some ("Attempt " ++ toString attempt ++ " failed: " ++ m) }
        (by omega) (by omega) (by omega)
      refine ⟨?_, ?_, ?_, ?_⟩ <;> simp only [process_attempts, hm, if_pos hlt]
      · exact ihres.1
      · exact ihres.2.1
      · exact ihres.2.2.1
      · rw [ihres.2.2.2,
          show k - attempt + 1 = (k - (attempt + 1) + 1) + 1 from by omega,
          List.range'_succ, List.range'_succ, List.range'_succ]

/-! ## C4 -/

/-- C4: with at least one attempt configured, a job whose pipeline raises on
every attempt comes back failed with `attempts = retry_attempts` having run
exactly attempts `1, …, retry_attempts` (never more); a job whose first
successful attempt is `k ≤ retry_attempts` comes back completed immediately
with `attempts = k`, its outputs recorded, having run exactly attempts
`1, …, k` (no further attempt after the success). -/
theorem C4_retry_bound (config : BatchConfig)
    (run : Nat → Except String (List String)) (t_start t_end : Time)
    (job : VideoProcessingJob) (hR : 1 ≤ config.retry_attempts) :
    ((∀ k, ∃ m, run k = Except.error m) →
      (process_single_video config run t_start t_end job).1.status = "failed"
      ∧ (process_single_video config run t_start t_end job).1.attempts =
          config.retry_attempts
      ∧ (process_single_video config run t_start t_end job).2.1 =
          List.range' 1 config.retry_attempts)
    ∧ (∀ k outs, 1 ≤ k → k ≤ config.retry_attempts →
        (∀ i, 1 ≤ i → i < k → ∃ m, run i = Except.error m) → run k = Except.ok outs →
        (process_single_video config run t_start t_end job).1.status = "completed"
        ∧ (process_single_video config run t_start t_end job).1.attempts = k
        ∧ (process_single_video config run t_start t_end job).1.output_files = outs
        ∧ (process_single_video config run t_start t_end job).2.1 =
            List.range' 1 k) := by
  constructor
  · intro hfail
    have h := process_attempts_all_fail config run t_end hfail config.retry_attempts 1
      { job with start_time := some t_start, status := "processing" } (by omega) hR
    exact ⟨h.1, h.2.1, h.2.2.1⟩
  · intro k outs hk1 hkR hbefore hk
    have h := process_attempts_first_success config run t_end k outs hk hbefore hkR
      config.retry_attempts 1
      { job with start_time := some t_start, status := "processing" } (by omega)
      (by omega) hk1
    have h4 : (process_single_video config run t_start t_end job).2.1 =
        List.range' 1 (k - 1 + 1) := h.2.2.2
    refine ⟨h.1, h.2.1, h.2.2.1, ?_⟩
    rw [h4, Nat.sub_add_cancel hk1]

/-- Witness for C4: default config (two attempts), an always-failing pipeline
and a first-attempt-succeeding pipeline. -/
theorem C4_retry_bound_witness :
    ((process_single_video {} (fun _ => Except.error "boom") 5 9
        { video_path := "v.mp4", job_id := "job_0000" }).1.status = "failed"
      ∧ (process_single_video {} (fun _ => Except.error "boom") 5 9
          { video_path := "v.mp4", job_id := "job_0000" }).1.attempts =
            ({} : BatchConfig).retry_attempts
      ∧ (process_single_video {} (fun _ => Except.error "boom") 5 9
          { video_path := "v.mp4", job_id := "job_0000" }).2.1 =
            List.range' 1 ({} : BatchConfig).retry_attempts)
    ∧ ((process_single_video {} (fun _ => Except.ok ["out.md"]) 5 9
        { video_path := "v.mp4", job_id := "job_0000" }).1.status = "completed"
      ∧ (process_single_video {} (fun _ => Except.ok ["out.md"]) 5 9
          { video_path := "v.mp4", job_id := "job_0000" }).1.attempts = 1
      ∧ (process_single_video {} (fun _ => Except.ok ["out.md"]) 5 9
          { video_path := "v.mp4", job_id := "job_0000" }).1.output_files = ["out.md"]
      ∧ (process_single_video {} (fun _ => Except.ok ["out.md"]) 5 9
          { video_path := "v.mp4", job_id := "job_0000" }).2.1 = List.range' 1 1) :=
  ⟨(C4_retry_bound {} (fun _ => Except.error "boom") 5 9
      { video_path := "v.mp4", job_id := "job_0000" } (by decide)).1
      (fun _ => ⟨"boom", rfl⟩),
   (C4_retry_bound {} (fun _ => Except.ok ["out.md"]) 5 9
      { video_path := "v.mp4", job_id := "job_0000" } (by decide)).2 1 ["out.md"]
      (by decide) (by decide) (fun i h1 hi => absurd hi (by omega)) rfl⟩

/-! ## C6 -/

/-- C6: for a job failing every attempt (with a nonnegative configured delay
and at least one attempt), the slept backoff durations are exactly
`retry_delay * k` for `k = 1, …, retry_attempts - 1` — the sleep before
attempt `k+1` is `retry_delay * k` — hence non-decreasing, and there are only
`retry_attempts - 1` of them: no sleep follows the final attempt. -/
theorem C6_linear_backoff (config : BatchConfig)
    (run : Nat → Except String (List String)) (t_start t_end : Time)
    (job : VideoProcessingJob) (hR : 1 ≤ config.retry_attempts)
    (hd : 0 ≤ config.retry_delay) (hfail : ∀ k, ∃ m, run k = Except.error m) :
    (process_single_video config run t_start t_end job).2.2 =
      (List.range' 1 (config.retry_attempts - 1)).map
        (fun k : Nat => config.retry_delay * (k : ℚ))
    ∧ List.Chain' (fun a b => a ≤ b)
        ((process_single_video config run t_start t_end job).2.2)
    ∧ ((process_single_video config run t_start t_end job).2.2).length =
        config.retry_attempts - 1 := by
  have h := process_attempts_all_fail config run t_end hfail config.retry_attempts 1
    { job with start_time := some t_start, status := "processing" } (by omega) hR
  have heq : (process_single_video config run t_start t_end job).2.2 =
      (List.range' 1 (config.retry_attempts - 1)).map
        (fun k : Nat => config.retry_delay * (k : ℚ)) := h.2.2.2
  refine ⟨heq, ?_, ?_⟩
  · rw [heq]
    refine List.Pairwise.chain' ?_
    rw [List.pairwise_map]
    exact (List.pairwise_le_range' 1 (config.retry_attempts - 1) 1).imp
      (fun {a b} hab => mul_le_mul_of_nonneg_left (Nat.cast_le.mpr hab) hd)
  · rw [heq, List.length_map, List.length_range']

/-- Witness for C6 with the default config (delay 1, two attempts): exactly
one sleep. -/
theorem C6_linear_backoff_witness :
    (process_single_video {} (fun _ => Except.error "boom") 5 9
        { video_path := "v.mp4", job_id := "job_0000" }).2.2 =
      (List.range' 1 (({} : BatchConfig).retry_attempts - 1)).map
        (fun k : Nat => ({} : BatchConfig).retry_delay * (k : ℚ))
    ∧ List.Chain' (fun a b => a ≤ b)
        ((process_single_video {} (fun _ => Except.error "boom") 5 9
          { video_path := "v.mp4", job_id := "job_0000" }).2.2)
    ∧ ((process_single_video {} (fun _ => Except.error "boom") 5 9
        { video_path := "v.mp4", job_id := "job_0000" }).2.2).length =
      ({} : BatchConfig).retry_attempts - 1 :=
  C6_linear_backoff {} (fun _ => Except.error "boom") 5 9
    { video_path := "v.mp4", job_id := "job_0000" } (by decide) (by norm_num)
    (fun _ => ⟨"boom", rfl⟩)

end DroneMetadata

namespace DroneMetadata

/-! ## C2 -/

/-- The worker body never reads the breaker knobs: changing
`continue_on_error` and `max_error_percentage` leaves the retry loop's result
untouched. -/
theorem process_attempts_breaker_irrel (config : BatchConfig) (b : Bool) (m : ℚ)
    (run : Nat → Except String (List String)) (t_end : Time) :
    ∀ fuel attempt job,
      process_attempts { config with continue_on_error := b, max_error_percentage := m }
          run t_end fuel attempt job
        = process_attempts config run t_end fuel attempt job := by
  intro fuel
  induction fuel with
  | zero => intro attempt job; rfl
  | succ g ih =>
    intro attempt job
    simp only [process_attempts]
    cases run attempt with
    | ok outs => rfl
    | error msg =>
      by_cases h : attempt < config.retry_attempts
      · simp [h, ih]
      · simp [h]

/-- C2: with `continue_on_error` false — (i) the moment a processed result
trips the breaker the completion loop returns the progress exactly as it then
stands, folding in no later completion; (ii) every filtered job is submitted
by the submission loop, which runs in full before any completion is
processed (`in_progress` grows by exactly the number of filtered jobs);
(iii) the completion loop never submits work (`in_progress` never increases
there); (iv) the breaker never preempts a running worker: the worker body's
result does not depend on `continue_on_error` or `max_error_percentage`, so
already-submitted jobs run to completion unaffected by the breaker. -/
theorem C2_circuit_breaker (config : BatchConfig)
    (hco : config.continue_on_error = false) :
    (∀ p job rest, breaker_tripped config (completion_step p job) = true →
      completion_loop config p (job :: rest) = completion_step p job)
    ∧ (∀ (p : BatchProgress) (to_process : List (Nat × VideoProcessingJob)),
        (submit_phase p to_process).in_progress =
          p.in_progress + to_process.length)
    ∧ (∀ (p : BatchProgress) (results : List VideoProcessingJob),
        (completion_loop config p results).in_progress ≤ p.in_progress)
    ∧ (∀ (b : Bool) (m : ℚ) run t_start t_end job,
        process_single_video
            { config with continue_on_error := b, max_error_percentage := m }
            run t_start t_end job
          = process_single_video config run t_start t_end job) := by
  have hstep : ∀ (p : BatchProgress) (job : VideoProcessingJob),
      (completion_step p job).in_progress = p.in_progress - 1 := by
    intro p job
    simp only [completion_step, update_progress]
    split_ifs <;> rfl
  refine ⟨?_, ?_, ?_, ?_⟩
  · intro p job rest h
    simp [completion_loop, h, hco]
  · intro p to_process
    induction to_process generalizing p with
    | nil => simp [submit_phase]
    | cons ij rest ih =>
      have := ih (submit_job p ij)
      simp only [submit_phase, List.foldl_cons] at this ⊢
      rw [this]
      simp [submit_job, List.length_cons]
      omega
  · intro p results
    induction results generalizing p with
    | nil => simp [completion_loop]
    | cons job rest ih =>
      simp only [completion_loop]
      split
      · rw [hstep]; omega
      · calc (completion_loop config (completion_step p job) rest).in_progress
            ≤ (completion_step p job).in_progress := ih _
          _ ≤ p.in_progress := by rw [hstep]; omega
  · intro b m run t_start t_end job
    simp only [process_single_video]
    exact process_attempts_breaker_irrel config b m run t_end config.retry_attempts 1 _

/-- Witness for C2 at concrete inputs: 12th result trips the breaker
(success rate 100/12 < 50) and the loop returns that state, ignoring the
remaining completion. -/
theorem C2_circuit_breaker_witness :
    completion_loop { continue_on_error := false }
        { batch_id := "b", total_videos := 20, completed := 1, failed := 10,
          in_progress := 5 }
        [{ video_path := "v.mp4", job_id := "job_0011", status := "failed" },
         { video_path := "w.mp4", job_id := "job_0012", status := "completed" }]
      = completion_step
          { batch_id := "b", total_videos := 20, completed := 1, failed := 10,
            in_progress := 5 }
          { video_path := "v.mp4", job_id := "job_0011", status := "failed" }
    ∧ process_single_video
        { continue_on_error := true, max_error_percentage := 10 }
        (fun _ => Except.error "x") 0 1
        { video_path := "v.mp4", job_id := "job_0011", status := "failed" }
      = process_single_video ({ continue_on_error := false } : BatchConfig)
        (fun _ => Except.error "x") 0 1
        { video_path := "v.mp4", job_id := "job_0011", status := "failed" } :=
  ⟨(C2_circuit_breaker { continue_on_error := false } rfl).1
      { batch_id := "b", total_videos := 20, completed := 1, failed := 10,
        in_progress := 5 }
      { video_path := "v.mp4", job_id := "job_0011", status := "failed" }
      [{ video_path := "w.mp4", job_id := "job_0012", status := "completed" }]
      (by
        simp [breaker_tripped, completion_step, update_progress, set_job,
          BatchProgress.processed, BatchProgress.success_rate]
        norm_num),
   (C2_circuit_breaker { continue_on_error := false } rfl).2.2.2 true 10
      (fun _ => Except.error "x") 0 1
      { video_path := "v.mp4", job_id := "job_0011", status := "failed" }⟩

end DroneMetadata

namespace DroneMetadata

/-! ## C8 -/

/-- C8 counterexample: the extension set matches only all-lowercase or
all-uppercase spellings, not an arbitrary mixture of cases.  A file whose
suffix is `.Mp4` — case-insensitively one of the video extensions, so the
claim says it is discovered — is not returned, while its all-lowercase twin
is. -/
theorem C8_mixed_case_extension_not_discovered :
    spec_matches_ci "clip.Mp4" = true
    ∧ discover_videos [.file "clip.Mp4"] = []
    ∧ discover_videos [.file "clip.mp4"] = ["clip.mp4"] := by
  decide

/-- C8 amended: `discover_videos` returns a deduplicated list, sorted by the
code-point string order, containing exactly the inputs' matches — a file
input whose `Path.suffix` is literally one of
`.mp4/.MP4/.mov/.MOV/.avi/.AVI` (all-lowercase or all-uppercase only), and
the directory descendants ending in one of those extensions; an input with
no matches contributes nothing (an empty result is not an error), while
`process_batch` turns an empty discovery into the hard
`No video files found in input paths` failure. -/
theorem C8_discover_exact_case_sorted_dedup (inputs : List InputPath) :
    List.Sorted StrLe (discover_videos inputs)
    ∧ (discover_videos inputs).Nodup
    ∧ (∀ q, q ∈ discover_videos inputs ↔ ∃ ip ∈ inputs, q ∈ discover_matches ip)
    ∧ (discover_videos inputs = [] →
        ∀ config batch_id file t0 t_save oracle ts te sched,
          process_batch config inputs batch_id file t0 t_save oracle ts te sched
            = Except.error "No video files found in input paths") := by
  refine ⟨?_, ?_, ?_, ?_⟩
  · exact List.sorted_insertionSort StrLe _
  · exact ((List.perm_insertionSort StrLe _).nodup_iff).mpr (List.nodup_dedup _)
  · intro q
    rw [discover_videos, (List.perm_insertionSort StrLe _).mem_iff, List.mem_dedup,
      List.mem_flatMap]
  · intro h config batch_id file t0 t_save oracle ts te sched
    simp [process_batch, h]

/-- Witness for C8 amended: a directory descendant is discovered, and a
matchless input makes `process_batch` fail hard. -/
theorem C8_discover_exact_case_sorted_dedup_witness :
    "d/b.MOV" ∈ discover_videos [.dir "d" ["d/b.MOV", "d/x.txt"], .file "clip.avi"]
    ∧ process_batch {} [.file "notes.txt"] "b" .missing 0 1
        (fun _ _ => Except.error "x") (fun _ => 0) (fun _ => 0) id
      = Except.error "No video files found in input paths" :=
  ⟨((C8_discover_exact_case_sorted_dedup
        [.dir "d" ["d/b.MOV", "d/x.txt"], .file "clip.avi"]).2.2.1 "d/b.MOV").mpr
      ⟨.dir "d" ["d/b.MOV", "d/x.txt"], by decide, by decide⟩,
   (C8_discover_exact_case_sorted_dedup [.file "notes.txt"]).2.2.2 (by decide)
      {} "b" .missing 0 1 (fun _ _ => Except.error "x") (fun _ => 0) (fun _ => 0) id⟩

end DroneMetadata

namespace DroneMetadata

/-! ## C3: counter bookkeeping lemmas -/

/-- Replacing position `i` (holding `y`) by `x` moves the predicate count by
exactly the difference between `x` and `y`. -/
theorem countP_set_eq {α : Type} (P : α → Bool) :
    ∀ (l : List α) (i : Nat) (x y : α), l[i]? = some y →
      (l.set i x).countP P + (if P y then 1 else 0)
        = l.countP P + (if P x then 1 else 0)
  | [], i, x, y => by simp
  | a :: l, 0, x, y => by
    intro h
    simp only [List.getElem?_cons_zero, Option.some.injEq] at h
    subst h
    simp only [List.set, List.countP_cons]
    omega
  | a :: l, i + 1, x, y => by
    intro h
    simp only [List.getElem?_cons_succ] at h
    have hrec := countP_set_eq P l i x y h
    simp only [List.set, List.countP_cons]
    omega

/-- Dict assignment of a non-pending job cannot create a pending entry. -/
theorem countP_pending_set_job :
    ∀ (l : List VideoProcessingJob) (j : VideoProcessingJob),
      l.countP (fun k => k.status = "pending") = 0 →
      ¬ j.status = "pending" →
      (set_job l j).countP (fun k => k.status = "pending") = 0
  | [], j => by
    intro _ hj
    simp [set_job, List.countP_cons, hj]
  | k :: rest, j => by
    intro h hj
    rw [List.countP_cons] at h
    have hrest : rest.countP (fun k => k.status = "pending") = 0 := by omega
    rw [set_job]
    split
    · rw [List.countP_cons, hrest]
      simp [hj]
    · rw [List.countP_cons, countP_pending_set_job rest j hrest hj]
      omega

/-- A completion step for a terminal-status result, in a state with no
pending job entry, preserves the counter sum, the total, and pending-freeness. -/
theorem completion_step_sum (p : BatchProgress) (j : VideoProcessingJob)
    (hst : j.status = "completed" ∨ j.status = "failed")
    (hpend : p.jobs.countP (fun k => k.status = "pending") = 0) :
    (completion_step p j).completed + (completion_step p j).failed
        + (completion_step p j).skipped + (completion_step p j).in_progress
        + pending_count (completion_step p j).jobs
      = p.completed + p.failed + p.skipped + p.in_progress + pending_count p.jobs
    ∧ (completion_step p j).total_videos = p.total_videos
    ∧ (completion_step p j).jobs.countP (fun k => k.status = "pending") = 0 := by
  have hj : ¬ j.status = "pending" := by
    rcases hst with h | h <;> simp [h]
  have hset := countP_pending_set_job p.jobs j hpend hj
  rcases hst with h | h <;>
    simp [completion_step, update_progress, h, pending_count, hset, hpend] <;>
    omega

/-- A completion step never decreases `processed`. -/
theorem processed_le_completion_step (p : BatchProgress) (j : VideoProcessingJob) :
    p.processed ≤ (completion_step p j).processed := by
  simp only [completion_step, update_progress, BatchProgress.processed]
  split_ifs <;> simp

/-- A submission step marking a pending job preserves the counter sum and the
total, and lowers the pending job count by exactly one. -/
theorem submit_job_sum (p : BatchProgress) (ij : Nat × VideoProcessingJob)
    (hget : p.jobs[ij.1]? = some ij.2) (hpending : ij.2.status = "pending") :
    (submit_job p ij).completed + (submit_job p ij).failed
        + (submit_job p ij).skipped + (submit_job p ij).in_progress
        + pending_count (submit_job p ij).jobs
      = p.completed + p.failed + p.skipped + p.in_progress + pending_count p.jobs
    ∧ (submit_job p ij).total_videos = p.total_videos
    ∧ (submit_job p ij).jobs.countP (fun k => k.status = "pending") + 1
        = p.jobs.countP (fun k => k.status = "pending") := by
  have hcnt := countP_set_eq (fun k : VideoProcessingJob => k.status = "pending")
    p.jobs ij.1 { ij.2 with status := "processing" } ij.2 hget
  rw [if_pos (by simp [hpending]), if_neg (by simp)] at hcnt
  refine ⟨?_, rfl, ?_⟩
  · show p.completed + p.failed + p.skipped + (p.in_progress + 1)
        + ((p.jobs.set ij.1 { ij.2 with status := "processing" }).countP
            (fun k => k.status = "pending") : Int)
      = p.completed + p.failed + p.skipped + p.in_progress
        + (p.jobs.countP (fun k => k.status = "pending") : Int)
    omega
  · show (p.jobs.set ij.1 { ij.2 with status := "processing" }).countP
        (fun k => k.status = "pending") + 1
      = p.jobs.countP (fun k => k.status = "pending")
    omega

end DroneMetadata

namespace DroneMetadata

/-- Along the submission loop over index-distinct pending jobs, every
intermediate state keeps the counter sum equal to the total; the final state
moreover has its pending count lowered by exactly the number of submissions. -/
theorem submit_scanl_invariant :
    ∀ (todo : List (Nat × VideoProcessingJob)) (p : BatchProgress),
      (∀ ij ∈ todo, p.jobs[ij.1]? = some ij.2 ∧ ij.2.status = "pending") →
      List.Pairwise (fun a b => a.1 < b.1) todo →
      p.completed + p.failed + p.skipped + p.in_progress + pending_count p.jobs
        = p.total_videos →
      (∀ q ∈ List.scanl submit_job p todo,
        q.completed + q.failed + q.skipped + q.in_progress + pending_count q.jobs
          = q.total_videos)
      ∧ (submit_phase p todo).completed + (submit_phase p todo).failed
          + (submit_phase p todo).skipped + (submit_phase p todo).in_progress
          + pending_count (submit_phase p todo).jobs
        = (submit_phase p todo).total_videos
      ∧ (submit_phase p todo).jobs.countP (fun k => k.status = "pending")
          + todo.length
        = p.jobs.countP (fun k => k.status = "pending")
  | [], p => by
    intro _ _ hsum
    refine ⟨?_, hsum, by simp [submit_phase]⟩
    intro q hq
    simp only [List.scanl_nil, List.mem_singleton] at hq
    subst hq
    exact hsum
  | ij :: rest, p => by
    intro hmem hpair hsum
    obtain ⟨hget, hpending⟩ := hmem ij (by simp)
    have hstep := submit_job_sum p ij hget hpending
    have hne : ∀ kl ∈ rest, ij.1 < kl.1 := (List.pairwise_cons.mp hpair).1
    have hmem' : ∀ kl ∈ rest,
        (submit_job p ij).jobs[kl.1]? = some kl.2 ∧ kl.2.status = "pending" := by
      intro kl hkl
      refine ⟨?_, (hmem kl (by simp [hkl])).2⟩
      have hne' : ij.1 ≠ kl.1 := Nat.ne_of_lt (hne kl hkl)
      calc (submit_job p ij).jobs[kl.1]?
          = p.jobs[kl.1]? := List.getElem?_set_ne hne'
        _ = some kl.2 := (hmem kl (by simp [hkl])).1
    have hsum' : (submit_job p ij).completed + (submit_job p ij).failed
        + (submit_job p ij).skipped + (submit_job p ij).in_progress
        + pending_count (submit_job p ij).jobs
        = (submit_job p ij).total_videos := by
      rw [hstep.1, hstep.2.1]
      exact hsum
    have ih := submit_scanl_invariant rest (submit_job p ij) hmem'
      (List.pairwise_cons.mp hpair).2 hsum'
    refine ⟨?_, ?_, ?_⟩
    · intro q hq
      rw [List.scanl_cons] at hq
      rcases List.mem_append.mp hq with hq1 | hq2
      · simp at hq1
        subst hq1
        exact hsum
      · exact ih.1 q hq2
    · show (submit_phase (submit_job p ij) rest).completed + _ + _ + _ + _ = _
      exact ih.2.1
    · have := ih.2.2
      show (submit_phase (submit_job p ij) rest).jobs.countP
          (fun k => k.status = "pending") + (rest.length + 1)
        = p.jobs.countP (fun k => k.status = "pending")
      omega

end DroneMetadata

namespace DroneMetadata

/-- Every state the completion loop passes through (truncated where it
breaks) keeps the counter sum equal to the total, provided the incoming
results have terminal statuses and the starting state has no pending job
entry. -/
theorem completion_trace_invariant (config : BatchConfig) :
    ∀ (results : List VideoProcessingJob) (p : BatchProgress),
      (∀ r ∈ results, r.status = "completed" ∨ r.status = "failed") →
      p.jobs.countP (fun k => k.status = "pending") = 0 →
      p.completed + p.failed + p.skipped + p.in_progress + pending_count p.jobs
        = p.total_videos →
      ∀ q ∈ completion_trace config p results,
        q.completed + q.failed + q.skipped + q.in_progress + pending_count q.jobs
          = q.total_videos
  | [], p => by
    intro _ _ _ q hq
    simp [completion_trace] at hq
  | r :: rest, p => by
    intro hst hpend hsum q hq
    have hstep := completion_step_sum p r (hst r (by simp)) hpend
    have hsum' : (completion_step p r).completed + (completion_step p r).failed
        + (completion_step p r).skipped + (completion_step p r).in_progress
        + pending_count (completion_step p r).jobs
        = (completion_step p r).total_videos := by
      rw [hstep.1, hstep.2.1]
      exact hsum
    simp only [completion_trace] at hq
    split at hq
    · simp only [List.mem_singleton] at hq
      subst hq
      exact hsum'
    · rcases List.mem_cons.mp hq with hq1 | hq2
      · subst hq1
        exact hsum'
      · exact completion_trace_invariant config rest (completion_step p r)
          (fun x hx => hst x (by simp [hx])) hstep.2.2 hsum' q hq2

/-- With at least one attempt configured, the retry loop always ends in a
terminal status. -/
theorem process_attempts_status_terminal (config : BatchConfig)
    (run : Nat → Except String (List String)) (t_end : Time) :
    ∀ fuel attempt job, attempt + fuel = config.retry_attempts + 1 → 1 ≤ fuel →
      (process_attempts config run t_end fuel attempt job).1.status = "completed"
      ∨ (process_attempts config run t_end fuel attempt job).1.status = "failed" := by
  intro fuel
  induction fuel with
  | zero => intro attempt job _ h; omega
  | succ g ih =>
    intro attempt job hsum _
    cases hrun : run attempt with
    | ok outs =>
      left
      simp [process_attempts, hrun]
    | error msg =>
      by_cases hlt : attempt < config.retry_attempts
      · have := ih (attempt + 1)
          { job with attempts := attempt,
                     error_message :=
                       some ("Attempt " ++ toString attempt ++ " failed: " ++ msg) }
          (by omega) (by omega)
        simpa [process_attempts, hrun, hlt] using this
      · right
        simp [process_attempts, hrun, hlt]

/-- With at least one attempt configured, a worker result's status is
completed or failed. -/
theorem worker_result_status (config : BatchConfig)
    (oracle : VideoProcessingJob → Nat → Except String (List String))
    (ts te : VideoProcessingJob → Time) (j : VideoProcessingJob)
    (hR : 1 ≤ config.retry_attempts) :
    (worker_result config oracle ts te j).status = "completed"
    ∨ (worker_result config oracle ts te j).status = "failed" :=
  process_attempts_status_terminal config (oracle j) (te j)
    config.retry_attempts 1 { j with start_time := some (ts j), status := "processing" }
    (by omega) hR

/-- `scanl` always starts with its initial state. -/
theorem scanl_head {α β : Type} (f : α → β → α) (b : α) (l : List β) :
    (List.scanl f b l).head? = some b := by
  cases l <;> simp [List.scanl]

/-- `scanl` ends with the fold of the whole list. -/
theorem scanl_getLast {α β : Type} (f : α → β → α) :
    ∀ (l : List β) (b : α), (List.scanl f b l).getLast? = some (List.foldl f b l)
  | [], b => rfl
  | x :: l, b => by
    rw [List.scanl_cons, List.foldl_cons]
    have hrec := scanl_getLast f l (f b x)
    cases hl : List.scanl f (f b x) l with
    | nil => rw [hl] at hrec; simp at hrec
    | cons c cs =>
      rw [hl] at hrec
      show (b :: c :: cs).getLast? = some (List.foldl f (f b x) l)
      rw [List.getLast?_cons_cons]
      exact hrec

/-- A step-compatible relation chains along any `scanl`. -/
theorem chain'_scanl {α β : Type} (R : α → α → Prop) (f : α → β → α)
    (hR : ∀ a x, R a (f a x)) :
    ∀ (l : List β) (b : α), List.Chain' R (List.scanl f b l)
  | [], b => by simp [List.scanl]
  | x :: l, b => by
    rw [List.scanl_cons, List.singleton_append]
    refine List.chain'_cons'.mpr ⟨?_, chain'_scanl R f hR l (f b x)⟩
    intro y hy
    rw [scanl_head] at hy
    simp only [Option.mem_def, Option.some.injEq] at hy
    subst hy
    exact hR b x

/-- The completion trace starts, when nonempty, with the first completion
step applied to the starting state. -/
theorem completion_trace_head (config : BatchConfig) (p : BatchProgress) :
    ∀ results, (completion_trace config p results).head? =
      results.head?.map (fun r => completion_step p r)
  | [] => rfl
  | r :: rest => by
    simp only [completion_trace, List.head?_cons, Option.map_some']
    split <;> rfl

/-- `processed` is non-decreasing along the completion trace. -/
theorem chain'_completion_trace (config : BatchConfig) :
    ∀ (results : List VideoProcessingJob) (p : BatchProgress),
      List.Chain' (fun a b : BatchProgress => a.processed ≤ b.processed)
        (completion_trace config p results)
  | [], p => by simp [completion_trace]
  | r :: rest, p => by
    simp only [completion_trace]
    split
    · exact List.chain'_singleton _
    · refine List.chain'_cons'.mpr ⟨?_, chain'_completion_trace config rest _⟩
      intro y hy
      rw [completion_trace_head] at hy
      cases rest with
      | nil => simp at hy
      | cons r2 rest2 =>
        simp only [List.head?_cons, Option.map_some', Option.mem_def,
          Option.some.injEq] at hy
        subst hy
        exact processed_le_completion_step _ _

end DroneMetadata

namespace DroneMetadata

/-- Every job of a fresh progress is pending. -/
theorem fresh_jobs_pending (batch_id : String) (video_files : List String)
    (t0 : Time) :
    ∀ j ∈ (fresh_progress batch_id video_files t0).jobs, j.status = "pending" := by
  intro j hj
  simp only [fresh_progress, List.mem_map] at hj
  obtain ⟨q, hq, rfl⟩ := hj
  rfl

/-- The filtered job set pairs every selected job with the position it holds
in the job list, and the positions are strictly increasing. -/
theorem jobs_to_process_idx_spec (config : BatchConfig)
    (jobs : List VideoProcessingJob) :
    (∀ ij ∈ jobs_to_process_idx config jobs, jobs[ij.1]? = some ij.2)
    ∧ List.Pairwise (fun a b : Nat × VideoProcessingJob => a.1 < b.1)
        (jobs_to_process_idx config jobs) := by
  constructor
  · intro ij hij
    exact List.mem_enum_iff_getElem?.mp (List.mem_filter.mp hij).1
  · have hmap : List.Pairwise (fun a b : Nat => a < b)
        (List.map Prod.fst jobs.enum) := by
      rw [List.enum_map_fst]
      exact List.pairwise_lt_range _
    exact (List.pairwise_map.mp hmap).filter _

/-- A pending job always passes the execution filter. -/
theorem selects_job_of_pending (config : BatchConfig) (j : VideoProcessingJob)
    (h : j.status = "pending") : selects_job config j = true := by
  simp [selects_job, h]

/-- C3 corrected: in a fresh (non-resumed) run with at least one attempt
configured, every observable progress state — before submission, after each
submission, after each processed completion — satisfies
`completed + failed + skipped + in_progress + pending = total_videos`, with
`pending` the number of jobs whose status is pending; and in every run, fresh
or resumed, `processed = completed + failed + skipped` is non-decreasing from
each observable state to the next.  (On a resumed run the sum equation fails:
see the counterexample — re-submitting a previously failed job increments
`in_progress` without releasing the job's old `failed` count.) -/
theorem C3_fresh_run_invariant_and_monotonicity (config : BatchConfig)
    (hR : 1 ≤ config.retry_attempts) (batch_id : String)
    (video_files : List String) (t0 : Time)
    (oracle : VideoProcessingJob → Nat → Except String (List String))
    (ts te : VideoProcessingJob → Time)
    (sched : List (Nat × VideoProcessingJob)) :
    (∀ q ∈ batch_observations config (fresh_progress batch_id video_files t0)
        oracle ts te sched,
      q.completed + q.failed + q.skipped + q.in_progress + pending_count q.jobs
        = q.total_videos)
    ∧ ∀ p : BatchProgress,
        List.Chain' (fun a b : BatchProgress => a.processed ≤ b.processed)
          (batch_observations config p oracle ts te sched) := by
  constructor
  · have hpend_all := fresh_jobs_pending batch_id video_files t0
    have hspec := jobs_to_process_idx_spec config
      (fresh_progress batch_id video_files t0).jobs
    have hmem : ∀ ij ∈ jobs_to_process_idx config
        (fresh_progress batch_id video_files t0).jobs,
        (fresh_progress batch_id video_files t0).jobs[ij.1]? = some ij.2
          ∧ ij.2.status = "pending" := by
      intro ij hij
      have hget := hspec.1 ij hij
      exact ⟨hget, hpend_all ij.2 (List.getElem?_mem hget)⟩
    have hcount : (fresh_progress batch_id video_files t0).jobs.countP
        (fun k => k.status = "pending")
        = (fresh_progress batch_id video_files t0).jobs.length :=
      List.countP_eq_length.mpr (fun j hj => by simp [hpend_all j hj])
    have hlen : (fresh_progress batch_id video_files t0).jobs.length
        = video_files.length := by
      simp [fresh_progress, List.enum_length]
    have hsum0 : (fresh_progress batch_id video_files t0).completed
        + (fresh_progress batch_id video_files t0).failed
        + (fresh_progress batch_id video_files t0).skipped
        + (fresh_progress batch_id video_files t0).in_progress
        + pending_count (fresh_progress batch_id video_files t0).jobs
        = (fresh_progress batch_id video_files t0).total_videos := by
      show (0 : Int) + 0 + 0 + 0
          + pending_count (fresh_progress batch_id video_files t0).jobs
        = (video_files.length : Int)
      simp only [pending_count, hcount, hlen]
      simp
    have htodo : jobs_to_process_idx config
        (fresh_progress batch_id video_files t0).jobs
        = (fresh_progress batch_id video_files t0).jobs.enum := by
      simp only [jobs_to_process_idx]
      refine List.filter_eq_self.mpr ?_
      intro a ha
      exact selects_job_of_pending config a.2
        (hpend_all a.2 (List.getElem?_mem (List.mem_enum_iff_getElem?.mp ha)))
    have hsub := submit_scanl_invariant
      (jobs_to_process_idx config (fresh_progress batch_id video_files t0).jobs)
      (fresh_progress batch_id video_files t0) hmem hspec.2 hsum0
    intro q hq
    simp only [batch_observations] at hq
    rcases List.mem_append.mp hq with hq1 | hq2
    · exact hsub.1 q hq1
    · have hpend0 : (submit_phase (fresh_progress batch_id video_files t0)
          (jobs_to_process_idx config
            (fresh_progress batch_id video_files t0).jobs)).jobs.countP
          (fun k => k.status = "pending") = 0 := by
        have h1 := hsub.2.2
        have h2 : (jobs_to_process_idx config
            (fresh_progress batch_id video_files t0).jobs).length
            = (fresh_progress batch_id video_files t0).jobs.length := by
          rw [htodo, List.enum_length]
        omega
      refine completion_trace_invariant config _ _ ?_ hpend0 hsub.2.1 q hq2
      intro r hr
      simp only [List.mem_map] at hr
      obtain ⟨ij, _, rfl⟩ := hr
      exact worker_result_status config oracle ts te ij.2 hR
  · intro p
    simp only [batch_observations]
    refine List.chain'_append.mpr
      ⟨chain'_scanl (fun a b : BatchProgress => a.processed ≤ b.processed)
        submit_job (fun a x => le_of_eq rfl)
        (jobs_to_process_idx config p.jobs) p,
       chain'_completion_trace config _ _, ?_⟩
    intro x hx y hy
    rw [scanl_getLast] at hx
    simp only [Option.mem_def, Option.some.injEq] at hx
    subst hx
    rw [completion_trace_head] at hy
    cases hsched : sched.map
        (fun ij => worker_result config oracle ts te ij.2) with
    | nil => rw [hsched] at hy; simp at hy
    | cons r rs =>
      rw [hsched] at hy
      simp only [List.head?_cons, Option.map_some', Option.mem_def,
        Option.some.injEq] at hy
      subst hy
      exact processed_le_completion_step _ _

/-- Witness for C3's amended statement: a concrete two-file fresh run with a
reversed completion order; the sum equation at the state after the first
submission, and monotonicity of the whole observation list. -/
theorem C3_fresh_run_invariant_and_monotonicity_witness :
    ((submit_job (fresh_progress "b" ["a.mp4", "b.mp4"] 0)
        (0, { video_path := "a.mp4", job_id := "job_0000" })).completed
      + (submit_job (fresh_progress "b" ["a.mp4", "b.mp4"] 0)
          (0, { video_path := "a.mp4", job_id := "job_0000" })).failed
      + (submit_job (fresh_progress "b" ["a.mp4", "b.mp4"] 0)
          (0, { video_path := "a.mp4", job_id := "job_0000" })).skipped
      + (submit_job (fresh_progress "b" ["a.mp4", "b.mp4"] 0)
          (0, { video_path := "a.mp4", job_id := "job_0000" })).in_progress
      + pending_count (submit_job (fresh_progress "b" ["a.mp4", "b.mp4"] 0)
          (0, { video_path := "a.mp4", job_id := "job_0000" })).jobs
      = (submit_job (fresh_progress "b" ["a.mp4", "b.mp4"] 0)
          (0, { video_path := "a.mp4", job_id := "job_0000" })).total_videos)
    ∧ List.Chain' (fun a b : BatchProgress => a.processed ≤ b.processed)
        (batch_observations {} (fresh_progress "b" ["a.mp4", "b.mp4"] 0)
          (fun _ _ => Except.error "x") (fun _ => 1) (fun _ => 2)
          (jobs_to_process_idx {}
            (fresh_progress "b" ["a.mp4", "b.mp4"] 0).jobs).reverse) :=
  ⟨(C3_fresh_run_invariant_and_monotonicity {} (by decide) "b" ["a.mp4", "b.mp4"]
      0 (fun _ _ => Except.error "x") (fun _ => 1) (fun _ => 2)
      (jobs_to_process_idx {}
        (fresh_progress "b" ["a.mp4", "b.mp4"] 0).jobs).reverse).1
    (submit_job (fresh_progress "b" ["a.mp4", "b.mp4"] 0)
      (0, { video_path := "a.mp4", job_id := "job_0000" }))
    (by decide),
   (C3_fresh_run_invariant_and_monotonicity {} (by decide) "b" ["a.mp4", "b.mp4"]
      0 (fun _ _ => Except.error "x") (fun _ => 1) (fun _ => 2)
      (jobs_to_process_idx {}
        (fresh_progress "b" ["a.mp4", "b.mp4"] 0).jobs).reverse).2
    (fresh_progress "b" ["a.mp4", "b.mp4"] 0)⟩

/-- C3 counterexample: in a resumed run the invariant breaks.  A checkpoint
holding one failed job (`failed = 1`, `total = 1`, attempts below the retry
budget, so even the spec's intended filter would re-run it) reloads exactly;
the failed job is selected for execution; and at the observation point right
after its re-submission the counters read
`completed 0 + failed 1 + skipped 0 + in_progress 1 + pending 0 = 2 ≠ 1 =
total_videos` — under the remainder reading, pending would have to be `-1`. -/
theorem C3_resumed_run_violates_invariant :
    load_progress "b" (.stored (progress_to_raw
        { batch_id := "b", total_videos := 1, failed := 1,
          jobs := [{ video_path := "a.mp4", job_id := "job_0000",
                     status := "failed", attempts := 1 }] }))
      = some { batch_id := "b", total_videos := 1, failed := 1,
               jobs := [{ video_path := "a.mp4", job_id := "job_0000",
                          status := "failed", attempts := 1 }] }
    ∧ jobs_to_process_idx {}
        [{ video_path := "a.mp4", job_id := "job_0000",
           status := "failed", attempts := 1 }]
      = [(0, { video_path := "a.mp4", job_id := "job_0000",
               status := "failed", attempts := 1 })]
    ∧ submit_job
        { batch_id := "b", total_videos := 1, failed := 1,
          jobs := [{ video_path := "a.mp4", job_id := "job_0000",
                     status := "failed", attempts := 1 }] }
        (0, { video_path := "a.mp4", job_id := "job_0000",
              status := "failed", attempts := 1 })
      ∈ batch_observations {}
          { batch_id := "b", total_videos := 1, failed := 1,
            jobs := [{ video_path := "a.mp4", job_id := "job_0000",
                       status := "failed", attempts := 1 }] }
          (fun _ _ => Except.error "x") (fun _ => 1) (fun _ => 2)
          [(0, { video_path := "a.mp4", job_id := "job_0000",
                 status := "failed", attempts := 1 })]
    ∧ ¬ ((submit_job
          { batch_id := "b", total_videos := 1, failed := 1,
            jobs := [{ video_path := "a.mp4", job_id := "job_0000",
                       status := "failed", attempts := 1 }] }
          (0, { video_path := "a.mp4", job_id := "job_0000",
                status := "failed", attempts := 1 })).completed
        + (submit_job
            { batch_id := "b", total_videos := 1, failed := 1,
              jobs := [{ video_path := "a.mp4", job_id := "job_0000",
                         status := "failed", attempts := 1 }] }
            (0, { video_path := "a.mp4", job_id := "job_0000",
                  status := "failed", attempts := 1 })).failed
        + (submit_job
            { batch_id := "b", total_videos := 1, failed := 1,
              jobs := [{ video_path := "a.mp4", job_id := "job_0000",
                         status := "failed", attempts := 1 }] }
            (0, { video_path := "a.mp4", job_id := "job_0000",
                  status := "failed", attempts := 1 })).skipped
        + (submit_job
            { batch_id := "b", total_videos := 1, failed := 1,
              jobs := [{ video_path := "a.mp4", job_id := "job_0000",
                         status := "failed", attempts := 1 }] }
            (0, { video_path := "a.mp4", job_id := "job_0000",
                  status := "failed", attempts := 1 })).in_progress
        + pending_count (submit_job
            { batch_id := "b", total_videos := 1, failed := 1,
              jobs := [{ video_path := "a.mp4", job_id := "job_0000",
                         status := "failed", attempts := 1 }] }
            (0, { video_path := "a.mp4", job_id := "job_0000",
                  status := "failed", attempts := 1 })).jobs
        = (submit_job
            { batch_id := "b", total_videos := 1, failed := 1,
              jobs := [{ video_path := "a.mp4", job_id := "job_0000",
                         status := "failed", attempts := 1 }] }
            (0, { video_path := "a.mp4", job_id := "job_0000",
                  status := "failed", attempts := 1 })).total_videos) := by
  decide

end DroneMetadata
